import Mathlib

/-
Verification of the batch PDF-to-text conversion script
(`scripts/pdf_to_text.py`) against its design specification.

The script has two functions:

* `extract_text_from_pdf(pdf_path, output_path)` — opens the PDF, asks the
  PDF library for its pages, accumulates `"\n--- Page {i+1} ---\n"` followed
  by the extracted text of page `i` for every page, writes the accumulated
  string to `output_path`, and returns `True`; any exception during open,
  parse, extraction or write is caught, an error line is printed, and
  `False` is returned.

* `main()` — globs the input files, sorts the list, derives each output
  file name from the first `_`-delimited token of the file stem, runs the
  conversion per file, and prints a final summary.

The third-party PDF library (PyPDF2) and the filesystem are external
collaborators; they are modelled by an environment value `PdfEnv` that
records, for one input file, the outcome of opening/parsing (either an
error message or the list of per-page extraction outcomes) and the outcome
of the write step.  The destination file is modelled as `Option String`
(`none` = the file does not exist).
-/

namespace PdfToText

/-- Console line printed by `extract_text_from_pdf` on success:
`f"Converted: {pdf_path} -> {output_path}"`. -/
def convertedLine (pdf_path output_path : String) : String :=
  "Converted: " ++ pdf_path ++ " -> " ++ output_path

/-- Console line printed by the `except` branch:
`f"Error converting {pdf_path}: {str(e)}"`. -/
def errorLine (pdf_path msg : String) : String :=
  "Error converting " ++ pdf_path ++ ": " ++ msg

/-- Outcome of the write step `open(output_path, 'w')` + `write(text)`:
it succeeds, or opening the destination fails (destination untouched), or
the write fails after `open` truncated/created the file, leaving the first
`written` characters. -/
inductive WriteOutcome where
  | ok : WriteOutcome
  | openFail : String → WriteOutcome
  | writeFail : String → Nat → WriteOutcome
deriving DecidableEq

/-- Environment describing what the external collaborators (PyPDF2 and the
filesystem) do for one input file: `parse` is the outcome of
`open(pdf_path,'rb')` + `PyPDF2.PdfReader` (an error message, or the list of
per-page `page.extract_text()` outcomes, each of which may itself raise),
and `write` is the outcome of the write step.  Fixing one `PdfEnv` per input
file is exactly the spec's determinism assumption on the library. -/
structure PdfEnv where
  parse : Except String (List (Except String String))
  write : WriteOutcome

/-- Result of one call to `extract_text_from_pdf`: the returned boolean, the
destination file contents afterwards (`none` = file absent), and the console
line printed by the call. -/
structure ConvOutcome where
  ok : Bool
  dest : Option String
  line : String
deriving DecidableEq

/-- The page-marker string inserted before page number `n` (1-based):
`f"\n--- Page {page_num + 1} ---\n"`. -/
def pageMarker (n : Nat) : String :=
  "\n--- Page " ++ toString n ++ " ---\n"

/-- The `for page_num in range(len(pdf_reader.pages))` loop: starting from
accumulated text `acc` and 1-based page number `n`, append the marker and
the page text for each page; the first page whose extraction raises aborts
the loop with that error. -/
def extractPages : List (Except String String) → Nat → String → Except String String
  | [], _, acc => Except.ok acc
  | Except.ok t :: rest, n, acc => extractPages rest (n + 1) (acc ++ pageMarker n ++ t)
  | Except.error e :: _, _, _ => Except.error e

/-- The text accumulated by the loop when every page extraction succeeds,
from 1-based page number `n` and accumulator `acc`. -/
def buildGo : List String → Nat → String → String
  | [], _, acc => acc
  | t :: ts, n, acc => buildGo ts (n + 1) (acc ++ pageMarker n ++ t)

/-- The full output text for per-page texts `ts`: the loop run from page 1
with the empty accumulator (`text = ""`). -/
def buildText (ts : List String) : String := buildGo ts 1 ""

/-- Model of `extract_text_from_pdf(pdf_path, output_path)` run against
environment `env` with prior destination contents `dest0`.  The `try` block
opens and parses the source, runs the page loop, then writes; the `except`
branch prints the error line and returns `False`. -/
def extract_text_from_pdf (pdf_path output_path : String) (env : PdfEnv)
    (dest0 : Option String) : ConvOutcome :=
  match env.parse with
  | Except.error e => ⟨false, dest0, errorLine pdf_path e⟩
  | Except.ok pageOutcomes =>
    match extractPages pageOutcomes 1 "" with
    | Except.error e => ⟨false, dest0, errorLine pdf_path e⟩
    | Except.ok text =>
      match env.write with
      | WriteOutcome.openFail e => ⟨false, dest0, errorLine pdf_path e⟩
      | WriteOutcome.writeFail e k => ⟨false, some (text.take k), errorLine pdf_path e⟩
      | WriteOutcome.ok => ⟨true, some text, convertedLine pdf_path output_path⟩

/-- Every page-extraction outcome in the list succeeded. -/
def allPagesOk : List (Except String String) → Bool
  | [] => true
  | Except.ok _ :: rest => allPagesOk rest
  | Except.error _ :: _ => false

/-- The write step succeeded. -/
def writeOk : WriteOutcome → Bool
  | WriteOutcome.ok => true
  | _ => false

/-- No failure at all occurred for this input: parsing succeeded, every page
extraction succeeded, and the write succeeded. -/
def conversionOk (env : PdfEnv) : Bool :=
  match env.parse with
  | Except.ok outs => allPagesOk outs && writeOk env.write
  | Except.error _ => false

/-- Opening or parsing the input, or extracting one of its pages, fails —
that is, a failure strictly before the write step. -/
def extractionFails (env : PdfEnv) : Bool :=
  match env.parse with
  | Except.error _ => true
  | Except.ok outs => !allPagesOk outs

/-- The per-page texts delivered by the environment (successful
extractions only). -/
def pageTexts : List (Except String String) → List String
  | [] => []
  | Except.ok t :: rest => t :: pageTexts rest
  | Except.error _ :: rest => pageTexts rest

/-- The per-page texts of the environment's document. -/
def envPages (env : PdfEnv) : List String :=
  match env.parse with
  | Except.ok outs => pageTexts outs
  | Except.error _ => []

/-- The full accumulated text for the environment's document. -/
def fullText (env : PdfEnv) : String := buildText (envPages env)

/-! The driver `main()`: output-file naming and the per-file loop.
`Path(pdf_file).stem` and `filename.split('_')[0]` are modelled as
character-list functions (a Lean `String` is a structure holding a
`List Char`). -/

/-- Fixed input directory of the script (`spec_dir`). -/
def spec_dir : String := "/Users/xiaoyongwen/UCIe/docs/spec"

/-- Fixed output directory of the script (`text_dir = spec_dir / "text"`). -/
def text_dir : String := spec_dir ++ "/" ++ "text"

/-- Index of the first occurrence of a dot in a character list. -/
def idxOfDot : List Char → Option Nat
  | [] => none
  | c :: cs => if c = '.' then some 0 else (idxOfDot cs).map (· + 1)

/-- Model of Python's `PurePath` suffix removal on one path component:
drop from the last dot on, provided that dot is neither the first nor the
last character (`name[:i]` when `0 < i < len(name) - 1`, else `name`). -/
def stemChars (cs : List Char) : List Char :=
  match idxOfDot cs.reverse with
  | none => cs
  | some j => if 0 < j ∧ j < cs.length - 1 then (cs.reverse.drop (j + 1)).reverse else cs

/-- The characters of the final path component: everything after the last
slash. -/
def baseNameChars (cs : List Char) : List Char :=
  (cs.reverse.takeWhile (fun c => c != '/')).reverse

/-- Model of Python's `split('_')[0]`: the characters before the first
underscore (the whole list when there is none). -/
def firstTokChars : List Char → List Char
  | [] => []
  | c :: cs => if c = '_' then [] else c :: firstTokChars cs

/-- The driver's `page_info = Path(pdf_file).stem.split('_')[0]`. -/
def page_info (pdf_file : String) : String :=
  String.mk (firstTokChars (stemChars (baseNameChars pdf_file.data)))

/-- The driver's output-file name:
`text_filename = f"ucie_spec_pages_{page_info}.txt"`. -/
def text_filename (pdf_file : String) : String :=
  "ucie_spec_pages_" ++ page_info pdf_file ++ ".txt"

/-- The full destination path `text_path = text_dir / text_filename`. -/
def text_path (pdf_file : String) : String :=
  text_dir ++ "/" ++ text_filename pdf_file

/-- The driver's `pdf_files.sort()`: ascending lexicographic (code-point)
order on the path strings. -/
def sortedFiles (pdf_files : List String) : List String :=
  List.insertionSort (· ≤ ·) pdf_files

/-- The driver's `for pdf_file in pdf_files:` loop, collecting the outcome
of each per-file conversion in order.  Each file's conversion starts from an
absent destination file. -/
def convResults (lib : String → PdfEnv) : List String → List ConvOutcome
  | [] => []
  | f :: fs =>
    extract_text_from_pdf f (text_path f) (lib f) none :: convResults lib fs

/-- Model of `main()`: every console line the process prints, in order —
the `Found ...` line, one line per (sorted) input file printed inside
`extract_text_from_pdf`, then the two final summary lines. -/
def mainLines (lib : String → PdfEnv) (pdf_files : List String) : List String :=
  ("Found " ++ toString pdf_files.length ++ " PDF files to convert")
    :: ((convResults lib (sortedFiles pdf_files)).map ConvOutcome.line
      ++ ["\nConversion complete!", "Text files saved in: " ++ text_dir])

/-! Character-level view of the output text, used to reason about its
line structure and the page markers. -/

/-- The characters of the marker line for page `n`, without the surrounding
newlines: `--- Page n ---`. -/
def markerBody (n : Nat) : List Char :=
  ("--- Page " ++ toString n ++ " ---").data

/-- Boolean test that `p` is an initial segment of `l`. -/
def hasPre : List Char → List Char → Bool
  | [], _ => true
  | _ :: _, [] => false
  | p :: ps, c :: cs => (p == c) && hasPre ps cs

/-- A line is page-marker-shaped when it begins like a marker line, with
the literal text `--- Page `. -/
def markerShaped (l : List Char) : Bool :=
  hasPre ("--- Page ").data l

/-- The lines of a character list: the segments between newline characters
(semantics of splitting on `"\n"`; the empty text has one empty line). -/
def linesOf : List Char → List (List Char)
  | [] => [[]]
  | c :: cs =>
    if c = '\n' then [] :: linesOf cs
    else
      match linesOf cs with
      | [] => [[c]]
      | l :: ls => (c :: l) :: ls

/-- The character stream the page loop emits for pages numbered from `n`:
for each page, a newline, the marker body, a newline, then the page text. -/
def blocksFrom : Nat → List (List Char) → List Char
  | _, [] => []
  | n, t :: ts => ('\n' :: markerBody n) ++ ('\n' :: t) ++ blocksFrom (n + 1) ts

/-- The lines contributed by the pages numbered from `n`: each page's marker
line followed by that page's own lines. -/
def markerTail : Nat → List (List Char) → List (List Char)
  | _, [] => []
  | n, t :: ts => markerBody n :: (linesOf t ++ markerTail (n + 1) ts)

/-- The output text as claim C1 words it: the concatenation, in page order
for N from 1 to P, of the marker line `--- Page N ---` followed by a newline
and then the page text, with nothing preceding the first marker.  This
definition follows the claim's words and is compared against `buildText`,
the translation of the code. -/
def claimC1SpecText (ts : List String) : String :=
  String.join ((ts.enumFrom 1).map fun p =>
    "--- Page " ++ toString p.1 ++ " ---" ++ "\n" ++ p.2)

/-- Fixture for the driver witnesses: a library environment with one
convertible file and one corrupt file. -/
def libW : String → PdfEnv :=
  fun f =>
    if f = "good.pdf" then ⟨Except.ok [Except.ok "body"], WriteOutcome.ok⟩
    else ⟨Except.error "EOF marker not found", WriteOutcome.ok⟩

/-- Fixture for the driver witnesses: the globbed files, deliberately out of
order. -/
def fsW : List String := ["good.pdf", "bad.pdf"]

/-! Auxiliary lemmas. -/

theorem ite_char_ne_newline (p : Prop) [Decidable p] (a b : Char) (ha : a ≠ '\n')
    (hb : b ≠ '\n') : (if p then a else b) ≠ '\n' := by
  by_cases h : p <;> simp [h, ha, hb]

theorem digitChar_ne_newline (m : Nat) : Nat.digitChar m ≠ '\n' := by
  unfold Nat.digitChar
  repeat' apply ite_char_ne_newline
  all_goals decide

theorem toDigitsCore_no_newline :
    ∀ (fuel n : Nat) (ds : List Char), (∀ c ∈ ds, c ≠ '\n') →
      ∀ c ∈ Nat.toDigitsCore 10 fuel n ds, c ≠ '\n' := by
  intro fuel
  induction fuel with
  | zero => intro n ds h; simpa [Nat.toDigitsCore] using h
  | succ f ih =>
    intro n ds h c hc
    rw [Nat.toDigitsCore] at hc
    by_cases h10 : n / 10 = 0
    · simp only [h10, if_pos] at hc
      rcases List.mem_cons.mp hc with h1 | h1
      · exact h1 ▸ digitChar_ne_newline _
      · exact h c h1
    · simp only [h10, if_neg, if_false] at hc
      refine ih (n / 10) _ ?_ c hc
      intro d hd
      rcases List.mem_cons.mp hd with h1 | h1
      · exact h1 ▸ digitChar_ne_newline _
      · exact h d h1

theorem toString_nat_no_newline (n : Nat) : ∀ c ∈ (toString n).data, c ≠ '\n' := by
  have : (toString n).data = Nat.toDigits 10 n := rfl
  rw [this, Nat.toDigits]
  exact toDigitsCore_no_newline _ _ _ (by simp)

theorem markerBody_no_newline (n : Nat) : ∀ c ∈ markerBody n, c ≠ '\n' := by
  have hpage : ∀ c ∈ ("--- Page ").data, c ≠ '\n' := by decide
  have htail : ∀ c ∈ (" ---").data, c ≠ '\n' := by decide
  intro c hc
  rw [markerBody, String.data_append, String.data_append] at hc
  rcases List.mem_append.mp hc with h1 | h1
  · rcases List.mem_append.mp h1 with h2 | h2
    · exact hpage c h2
    · exact toString_nat_no_newline n c h2
  · exact htail c h1

theorem linesOf_ne_nil (cs : List Char) : linesOf cs ≠ [] := by
  induction cs with
  | nil => simp [linesOf]
  | cons c cs ih =>
    rw [linesOf]
    split
    · simp
    · split
      · simp
      · simp

theorem linesOf_append_newline (a b : List Char) :
    linesOf (a ++ '\n' :: b) = linesOf a ++ linesOf b := by
  induction a with
  | nil => simp [linesOf]
  | cons c cs ih =>
    by_cases h : c = '\n'
    · subst h
      rw [List.cons_append, linesOf, if_pos rfl, ih, linesOf, if_pos rfl, List.cons_append]
    · obtain ⟨l, ls, hl⟩ : ∃ l ls, linesOf cs = l :: ls := by
        cases h' : linesOf cs with
        | nil => exact absurd h' (linesOf_ne_nil cs)
        | cons l ls => exact ⟨l, ls, rfl⟩
      rw [List.cons_append, linesOf, if_neg h, ih, hl, linesOf, if_neg h, hl]
      simp

theorem linesOf_no_newline (cs : List Char) (h : ∀ c ∈ cs, c ≠ '\n') : linesOf cs = [cs] := by
  induction cs with
  | nil => rfl
  | cons c cs ih =>
    have hc : c ≠ '\n' := h c (List.mem_cons_self _ _)
    rw [linesOf, if_neg hc, ih (fun d hd => h d (List.mem_cons_of_mem _ hd))]

theorem linesOf_markerBody (n : Nat) : linesOf (markerBody n) = [markerBody n] :=
  linesOf_no_newline _ (markerBody_no_newline n)

theorem hasPre_append_self (p r : List Char) : hasPre p (p ++ r) = true := by
  induction p with
  | nil => rfl
  | cons c cs ih => simp [hasPre, ih]

theorem markerShaped_markerBody (n : Nat) : markerShaped (markerBody n) = true := by
  have h : markerBody n = ("--- Page ").data ++ ((toString n).data ++ (" ---").data) := by
    rw [markerBody, String.data_append, String.data_append, List.append_assoc]
  rw [markerShaped, h]
  exact hasPre_append_self _ _

theorem markerShaped_nil : markerShaped [] = false := rfl

theorem pageMarker_data (n : Nat) :
    (pageMarker n).data = ('\n' :: markerBody n) ++ ['\n'] := by
  have h1 : ("\n--- Page ").data = '\n' :: ("--- Page ").data := rfl
  have h2 : (" ---\n").data = (" ---").data ++ ['\n'] := by decide
  rw [pageMarker, markerBody, String.data_append, String.data_append, String.data_append,
    String.data_append, h1, h2]
  simp [List.append_assoc]

theorem buildGo_data (ts : List String) : ∀ (n : Nat) (acc : String),
    (buildGo ts n acc).data = acc.data ++ blocksFrom n (ts.map String.data) := by
  induction ts with
  | nil => intro n acc; simp [buildGo, blocksFrom]
  | cons t ts ih =>
    intro n acc
    rw [buildGo, ih, List.map_cons, blocksFrom, String.data_append, String.data_append,
      pageMarker_data]
    simp [List.append_assoc]

theorem buildText_data (ts : List String) :
    (buildText ts).data = blocksFrom 1 (ts.map String.data) := by
  rw [buildText, buildGo_data]
  rfl

theorem linesOf_append_blocks : ∀ (ts : List (List Char)) (n : Nat) (t : List Char),
    linesOf (t ++ blocksFrom n ts) = linesOf t ++ markerTail n ts := by
  intro ts
  induction ts with
  | nil => intro n t; simp [blocksFrom, markerTail]
  | cons u ts ih =>
    intro n t
    have hshape : ('\n' :: markerBody n) ++ ('\n' :: u) ++ blocksFrom (n + 1) ts
        = '\n' :: (markerBody n ++ '\n' :: (u ++ blocksFrom (n + 1) ts)) := by
      simp [List.append_assoc]
    rw [blocksFrom, markerTail, hshape,
      linesOf_append_newline t (markerBody n ++ '\n' :: (u ++ blocksFrom (n + 1) ts)),
      linesOf_append_newline (markerBody n) (u ++ blocksFrom (n + 1) ts),
      linesOf_markerBody, ih]
    simp

theorem linesOf_blocksFrom (ts : List (List Char)) (n : Nat) :
    linesOf (blocksFrom n ts) = [] :: markerTail n ts := by
  have h := linesOf_append_blocks ts n []
  simpa [linesOf] using h

theorem filter_markerTail : ∀ (ts : List (List Char)) (n : Nat),
    (∀ t ∈ ts, ∀ l ∈ linesOf t, markerShaped l = false) →
    (markerTail n ts).filter markerShaped = (List.range' n ts.length).map markerBody := by
  intro ts
  induction ts with
  | nil => intro n _; rfl
  | cons u ts ih =>
    intro n h
    have hu : (linesOf u).filter markerShaped = [] := by
      refine List.filter_eq_nil_iff.mpr ?_
      intro l hl
      simp [h u (List.mem_cons_self _ _) l hl]
    rw [markerTail, List.filter_cons, List.filter_append, hu,
      ih (n + 1) (fun t ht l hl => h t (List.mem_cons_of_mem _ ht) l hl),
      List.length_cons, List.range'_succ, List.map_cons]
    simp [markerShaped_markerBody]

theorem strFoldl_append (l : List String) : ∀ a : String,
    l.foldl (· ++ ·) a = a ++ l.foldl (· ++ ·) "" := by
  induction l with
  | nil => intro a; simp
  | cons b l ih =>
    intro a
    rw [List.foldl_cons, ih, List.foldl_cons, ih ("" ++ b)]
    simp [String.append_assoc]

theorem strJoin_cons (a : String) (l : List String) :
    String.join (a :: l) = a ++ String.join l := by
  show List.foldl (· ++ ·) "" (a :: l) = a ++ List.foldl (· ++ ·) "" l
  rw [List.foldl_cons, strFoldl_append]
  simp

theorem buildGo_eq_join (ts : List String) : ∀ (n : Nat) (acc : String),
    buildGo ts n acc
      = acc ++ String.join ((ts.enumFrom n).map fun p => pageMarker p.1 ++ p.2) := by
  induction ts with
  | nil => intro n acc; simp [buildGo, String.join]
  | cons t ts ih =>
    intro n acc
    rw [buildGo, ih, List.enumFrom_cons, List.map_cons, strJoin_cons]
    simp [String.append_assoc]

theorem buildText_eq_join (ts : List String) :
    buildText ts = String.join ((ts.enumFrom 1).map fun p => pageMarker p.1 ++ p.2) := by
  rw [buildText, buildGo_eq_join]
  simp

theorem extractPages_ok (ts : List String) : ∀ (n : Nat) (acc : String),
    extractPages (ts.map Except.ok) n acc = Except.ok (buildGo ts n acc) := by
  induction ts with
  | nil => intro n acc; rfl
  | cons t ts ih =>
    intro n acc
    rw [List.map_cons, extractPages, buildGo]
    exact ih _ _

theorem extractPages_error (outs : List (Except String String)) :
    allPagesOk outs = false →
      ∀ (n : Nat) (acc : String), ∃ e, extractPages outs n acc = Except.error e := by
  induction outs with
  | nil => intro h; simp [allPagesOk] at h
  | cons o rest ih =>
    cases o with
    | ok t =>
      intro h n acc
      rw [extractPages]
      exact ih (by simpa [allPagesOk] using h) (n + 1) _
    | error e => intro _ n acc; exact ⟨e, rfl⟩

theorem pageTexts_of_allOk : ∀ outs : List (Except String String),
    allPagesOk outs = true → outs = (pageTexts outs).map Except.ok := by
  intro outs
  induction outs with
  | nil => intro _; rfl
  | cons o rest ih =>
    cases o with
    | ok t =>
      intro h
      rw [pageTexts, List.map_cons]
      exact congrArg _ (ih (by simpa [allPagesOk] using h))
    | error e => intro h; simp [allPagesOk] at h

theorem fullText_of_parse (env : PdfEnv) (outs : List (Except String String))
    (hp : env.parse = Except.ok outs) :
    fullText env = buildText (pageTexts outs) := by
  rw [fullText, envPages, hp]

theorem extractPages_of_allOk (outs : List (Except String String))
    (hall : allPagesOk outs = true) :
    extractPages outs 1 "" = Except.ok (buildText (pageTexts outs)) := by
  conv_lhs => rw [pageTexts_of_allOk outs hall]
  rw [extractPages_ok]
  rfl

theorem extract_of_ok (p o : String) (env : PdfEnv) (d0 : Option String)
    (h : conversionOk env = true) :
    extract_text_from_pdf p o env d0 = ⟨true, some (fullText env), convertedLine p o⟩ := by
  cases hp : env.parse with
  | error e => simp [conversionOk, hp] at h
  | ok outs =>
    have h' : allPagesOk outs = true ∧ writeOk env.write = true := by
      simpa [conversionOk, hp, Bool.and_eq_true] using h
    have hw : env.write = WriteOutcome.ok := by
      cases hwc : env.write with
      | ok => rfl
      | openFail e => rw [hwc] at h'; simp [writeOk] at h'
      | writeFail e k => rw [hwc] at h'; simp [writeOk] at h'
    have hex := extractPages_of_allOk outs h'.1
    rw [fullText_of_parse env outs hp]
    simp [extract_text_from_pdf, hp, hex, hw]

theorem extract_of_fail (p o : String) (env : PdfEnv) (d0 : Option String)
    (h : conversionOk env = false) :
    (extract_text_from_pdf p o env d0).ok = false
    ∧ ∃ m, (extract_text_from_pdf p o env d0).line = errorLine p m := by
  cases hp : env.parse with
  | error e =>
    refine ⟨by simp [extract_text_from_pdf, hp], e, by simp [extract_text_from_pdf, hp]⟩
  | ok outs =>
    cases hall : allPagesOk outs with
    | false =>
      obtain ⟨e, he⟩ := extractPages_error outs hall 1 ""
      refine ⟨by simp [extract_text_from_pdf, hp, he], e, by simp [extract_text_from_pdf, hp, he]⟩
    | true =>
      have hex := extractPages_of_allOk outs hall
      have hwf : writeOk env.write = false := by
        simpa [conversionOk, hp, hall] using h
      cases hw : env.write with
      | ok => rw [hw] at hwf; simp [writeOk] at hwf
      | openFail e =>
        refine ⟨by simp [extract_text_from_pdf, hp, hex, hw], e,
          by simp [extract_text_from_pdf, hp, hex, hw]⟩
      | writeFail e k =>
        refine ⟨by simp [extract_text_from_pdf, hp, hex, hw], e,
          by simp [extract_text_from_pdf, hp, hex, hw]⟩

theorem convResults_eq_map (lib : String → PdfEnv) (fs : List String) :
    convResults lib fs
      = fs.map (fun f => extract_text_from_pdf f (text_path f) (lib f) none) := by
  induction fs with
  | nil => rfl
  | cons f fs ih => rw [convResults, List.map_cons, ih]

theorem getLast?_cons_append_pair {α : Type} (x a b : α) (L : List α) :
    (x :: (L ++ [a, b])).getLast? = some b := by
  have h : x :: (L ++ [a, b]) = (x :: (L ++ [a])) ++ [b] := by simp
  rw [h, List.getLast?_concat]

theorem idxOfDot_pdf_reverse (r : List Char) :
    idxOfDot ('f' :: 'd' :: 'p' :: '.' :: r) = some 3 := by
  simp [idxOfDot]

theorem stemChars_pdf (base : List Char) (hb : base ≠ []) :
    stemChars (base ++ (".pdf").data) = base := by
  have hrev : (base ++ (".pdf").data).reverse = 'f' :: 'd' :: 'p' :: '.' :: base.reverse := by
    rw [show (".pdf").data = ['.', 'p', 'd', 'f'] from rfl, List.reverse_append]
    rfl
  have hcond : 0 < 3 ∧ 3 < (base ++ (".pdf").data).length - 1 := by
    refine ⟨by norm_num, ?_⟩
    rw [List.length_append, show (".pdf").data.length = 4 from rfl]
    have : 0 < base.length := List.length_pos.mpr hb
    omega
  rw [stemChars, hrev, idxOfDot_pdf_reverse]
  show (if 0 < 3 ∧ 3 < (base ++ (".pdf").data).length - 1 then
      (('f' :: 'd' :: 'p' :: '.' :: base.reverse).drop (3 + 1)).reverse
    else base ++ (".pdf").data) = base
  rw [if_pos hcond]
  show ((base.reverse).drop 0).reverse = base
  rw [List.drop_zero, List.reverse_reverse]

theorem firstTokChars_append (ident rest : List Char) (h : '_' ∉ ident) :
    firstTokChars (ident ++ '_' :: rest) = ident := by
  induction ident with
  | nil => simp [firstTokChars]
  | cons c cs ih =>
    have hc : c ≠ '_' := fun hc => h (hc ▸ List.mem_cons_self _ _)
    rw [List.cons_append, firstTokChars, if_neg hc,
      ih (fun hm => h (List.mem_cons_of_mem _ hm))]

theorem takeWhile_all {α : Type} (p : α → Bool) : ∀ l : List α,
    (∀ c ∈ l, p c = true) → l.takeWhile p = l := by
  intro l
  induction l with
  | nil => intro _; rfl
  | cons c cs ih =>
    intro h
    rw [List.takeWhile_cons, if_pos (h c (List.mem_cons_self _ _)),
      ih (fun d hd => h d (List.mem_cons_of_mem _ hd))]

theorem baseNameChars_no_slash (cs : List Char) (h : '/' ∉ cs) :
    baseNameChars cs = cs := by
  rw [baseNameChars, takeWhile_all _ _ ?_, List.reverse_reverse]
  intro c hc
  have : c ∈ cs := List.mem_reverse.mp hc
  have hne : c ≠ '/' := fun he => h (he ▸ this)
  simpa using hne

/-! Claims. -/

/-- Claim C1, counterexample: the claim says the output text is the
concatenation of the marker line followed by a newline and the page text,
with nothing preceding the first marker; but already for a one-page document
with page text "x" the code's output differs from that description, because
the output starts with a newline character that precedes the first marker. -/
theorem claimC1_counterexample :
    buildText ["x"] ≠ claimC1SpecText ["x"]
    ∧ (buildText ["x"]).data.head? = some '\n' := by decide

/-- Claim C1, amended: for every document with per-page texts t_1..t_P, the
output text is exactly the concatenation, in page order for N from 1 to P,
of a newline, the marker line `--- Page N ---`, a newline, and then t_N —
so a newline (rather than nothing) precedes the first marker, and no marker
or page content is omitted or reordered. -/
theorem claimC1_amended (ts : List String) :
    buildText ts = String.join ((ts.enumFrom 1).map fun p =>
      "\n" ++ ("--- Page " ++ toString p.1 ++ " ---") ++ "\n" ++ p.2) := by
  have hm : ∀ n : Nat,
      pageMarker n = "\n" ++ ("--- Page " ++ toString n ++ " ---") ++ "\n" := by
    intro n
    apply String.ext
    rw [pageMarker]
    simp [String.data_append]
  rw [buildText_eq_join]
  exact congrArg String.join (List.map_congr_left fun p _ => by rw [hm p.1])

/-- Claim C2: for every document whose per-page texts contain no
page-marker-shaped line (no line beginning with the literal `--- Page `),
the lines of the output text that are page-marker-shaped are exactly the
marker lines `--- Page 1 ---`, `--- Page 2 ---`, ..., `--- Page N ---`, in
that ascending order — N occurrences for an N-page document. -/
theorem claimC2 (ts : List String)
    (h : ∀ t ∈ ts, ∀ l ∈ linesOf t.data, markerShaped l = false) :
    (linesOf (buildText ts).data).filter markerShaped
      = (List.range' 1 ts.length).map markerBody := by
  rw [buildText_data, linesOf_blocksFrom, List.filter_cons]
  have h' : ∀ t ∈ ts.map String.data, ∀ l ∈ linesOf t, markerShaped l = false := by
    intro t ht l hl
    obtain ⟨s, hs, rfl⟩ := List.mem_map.mp ht
    exact h s hs l hl
  rw [filter_markerTail _ 1 h']
  simp [markerShaped_nil]

/-- Claim C2, witness: a concrete two-page document, the second page text
spanning two lines, has exactly the markers `--- Page 1 ---` and
`--- Page 2 ---`, in that order. -/
theorem claimC2_witness :
    (∀ t ∈ (["hello", "wor\nld"] : List String), ∀ l ∈ linesOf t.data,
      markerShaped l = false)
    ∧ (linesOf (buildText ["hello", "wor\nld"]).data).filter markerShaped
        = (List.range' 1 (["hello", "wor\nld"] : List String).length).map markerBody :=
  ⟨by decide, claimC2 ["hello", "wor\nld"] (by decide)⟩

/-- Claim C3: the function never raises (it is total in the model, the
`try` block spanning the whole body); it returns `True` exactly when no
failure occurred during open, parse, per-page extraction, or write; and on
success the destination holds the full accumulated text. -/
theorem claimC3 (p o : String) (env : PdfEnv) (d0 : Option String) :
    ((extract_text_from_pdf p o env d0).ok = true ↔ conversionOk env = true)
    ∧ (conversionOk env = true →
        (extract_text_from_pdf p o env d0).dest = some (fullText env)) := by
  constructor
  · constructor
    · intro hok
      by_contra hno
      have hfail := (extract_of_fail p o env d0 (Bool.not_eq_true _ ▸ hno)).1
      rw [hok] at hfail
      cases hfail
    · intro hc
      rw [extract_of_ok p o env d0 hc]
  · intro hc
    rw [extract_of_ok p o env d0 hc]

/-- Claim C3, witness: a concrete successful environment returns `True` with
the text written, and a concrete corrupt one returns `False`. -/
theorem claimC3_witness :
    ((extract_text_from_pdf "a.pdf" "a.txt" ⟨Except.ok [Except.ok "t"], WriteOutcome.ok⟩
        none).ok = true
      ↔ conversionOk ⟨Except.ok [Except.ok "t"], WriteOutcome.ok⟩ = true)
    ∧ (conversionOk ⟨Except.ok [Except.ok "t"], WriteOutcome.ok⟩ = true →
        (extract_text_from_pdf "a.pdf" "a.txt" ⟨Except.ok [Except.ok "t"], WriteOutcome.ok⟩
          none).dest = some (fullText ⟨Except.ok [Except.ok "t"], WriteOutcome.ok⟩)) :=
  claimC3 "a.pdf" "a.txt" ⟨Except.ok [Except.ok "t"], WriteOutcome.ok⟩ none

/-- Claim C4: when opening, parsing, or any per-page extraction fails — a
failure strictly before the write step — the function returns a failed
result and the destination is exactly as it was before the call (in
particular, if it did not exist, it is not created). -/
theorem claimC4 (p o : String) (env : PdfEnv) (d0 : Option String)
    (h : extractionFails env = true) :
    (extract_text_from_pdf p o env d0).ok = false
    ∧ (extract_text_from_pdf p o env d0).dest = d0 := by
  cases hp : env.parse with
  | error e => simp [extract_text_from_pdf, hp]
  | ok outs =>
    have hall : allPagesOk outs = false := by
      simpa [extractionFails, hp] using h
    obtain ⟨e, he⟩ := extractPages_error outs hall 1 ""
    simp [extract_text_from_pdf, hp, he]

/-- Claim C4, witness: a corrupt input with no pre-existing destination
yields a failed result and still no destination file. -/
theorem claimC4_witness :
    extractionFails ⟨Except.error "bad xref", WriteOutcome.ok⟩ = true
    ∧ (extract_text_from_pdf "c.pdf" "c.txt" ⟨Except.error "bad xref", WriteOutcome.ok⟩
        none).ok = false
    ∧ (extract_text_from_pdf "c.pdf" "c.txt" ⟨Except.error "bad xref", WriteOutcome.ok⟩
        none).dest = none :=
  ⟨by decide, claimC4 "c.pdf" "c.txt" ⟨Except.error "bad xref", WriteOutcome.ok⟩ none (by decide)⟩

/-- Claim C6: a document with zero pages converts successfully, the
destination file is created with empty contents, and the empty text contains
no page-marker-shaped line. -/
theorem claimC6 (p o : String) (env : PdfEnv) (d0 : Option String)
    (hp : env.parse = Except.ok []) (hw : env.write = WriteOutcome.ok) :
    extract_text_from_pdf p o env d0 = ⟨true, some "", convertedLine p o⟩
    ∧ (linesOf ("" : String).data).filter markerShaped = [] := by
  refine ⟨?_, by decide⟩
  simp [extract_text_from_pdf, hp, hw, extractPages]

/-- Claim C6, witness: the concrete zero-page environment. -/
theorem claimC6_witness :
    (⟨Except.ok [], WriteOutcome.ok⟩ : PdfEnv).parse = Except.ok []
    ∧ extract_text_from_pdf "z.pdf" "z.txt" ⟨Except.ok [], WriteOutcome.ok⟩ none
        = ⟨true, some "", convertedLine "z.pdf" "z.txt"⟩
    ∧ (linesOf ("" : String).data).filter markerShaped = [] := by
  have h := claimC6 "z.pdf" "z.txt" ⟨Except.ok [], WriteOutcome.ok⟩ none rfl rfl
  exact ⟨rfl, h.1, h.2⟩

/-- Claim C7: with the library environment fixed (the determinism
assumption), running the conversion a second time — starting from the
destination state the first run left — produces exactly the same outcome,
and in particular byte-identical destination contents: the conversion is
idempotent on the destination. -/
theorem claimC7 (p o : String) (env : PdfEnv) (d0 : Option String) :
    extract_text_from_pdf p o env ((extract_text_from_pdf p o env d0).dest)
      = extract_text_from_pdf p o env d0 := by
  cases hp : env.parse with
  | error e => simp [extract_text_from_pdf, hp]
  | ok outs =>
    cases he : extractPages outs 1 "" with
    | error e => simp [extract_text_from_pdf, hp, he]
    | ok text =>
      cases hw : env.write with
      | ok => simp [extract_text_from_pdf, hp, he, hw]
      | openFail e => simp [extract_text_from_pdf, hp, he, hw]
      | writeFail e k => simp [extract_text_from_pdf, hp, he, hw]

/-- Claim C8: for an input file name consisting of a page-range identifier
(no underscore, no slash), an underscore, any slash-free remainder, and the
final `.pdf` suffix, the driver derives the output name
`ucie_spec_pages_<identifier>.txt`. -/
theorem claimC8 (ident mid : List Char) (h1 : '_' ∉ ident) (h2 : '/' ∉ ident)
    (h3 : '/' ∉ mid) :
    text_filename (String.mk (ident ++ '_' :: (mid ++ (".pdf").data)))
      = "ucie_spec_pages_" ++ String.mk ident ++ ".txt" := by
  have hslash : '/' ∉ ident ++ '_' :: (mid ++ (".pdf").data) := by
    intro hm
    rcases List.mem_append.mp hm with hin | hin
    · exact h2 hin
    · rcases List.mem_cons.mp hin with hin | hin
      · cases hin
      · rcases List.mem_append.mp hin with hin | hin
        · exact h3 hin
        · revert hin; decide
  have hbase : ident ++ '_' :: (mid ++ (".pdf").data)
      = (ident ++ '_' :: mid) ++ (".pdf").data := by
    simp
  have hne : ident ++ '_' :: mid ≠ [] := by
    intro hcontra
    have := congrArg List.length hcontra
    simp at this
  rw [text_filename, page_info]
  show ("ucie_spec_pages_" : String)
      ++ String.mk (firstTokChars (stemChars (baseNameChars
          (ident ++ '_' :: (mid ++ (".pdf").data))))) ++ ".txt"
    = "ucie_spec_pages_" ++ String.mk ident ++ ".txt"
  rw [baseNameChars_no_slash _ hslash, hbase, stemChars_pdf _ hne,
    firstTokChars_append _ _ h1]

/-- Claim C8, witness: the file named in the spec,
`005_PDFsam_UCIe_Specification_1.0.pdf`, maps to `ucie_spec_pages_005.txt`. -/
theorem claimC8_witness :
    '_' ∉ (['0', '0', '5'] : List Char)
    ∧ text_filename (String.mk (['0', '0', '5']
        ++ '_' :: (("PDFsam_UCIe_Specification_1.0").data ++ (".pdf").data)))
      = "ucie_spec_pages_" ++ String.mk ['0', '0', '5'] ++ ".txt" :=
  ⟨by decide, claimC8 ['0', '0', '5'] ("PDFsam_UCIe_Specification_1.0").data
    (by decide) (by decide) (by decide)⟩

/-- Claim C9: for every nonempty document, the output text begins with a
newline character — the blank line that precedes the first marker — and not
with the marker line itself; each page contributes exactly the newline, the
marker line, a newline, and its own text. -/
theorem claimC9 (ts : List String) (h : ts ≠ []) :
    (buildText ts).data.head? = some '\n'
    ∧ markerShaped (buildText ts).data = false
    ∧ buildText ts
        = String.join ((ts.enumFrom 1).map fun p => pageMarker p.1 ++ p.2) := by
  refine ⟨?_, ?_, buildText_eq_join ts⟩
  · cases ts with
    | nil => exact absurd rfl h
    | cons t ts =>
      rw [buildText_data, List.map_cons, blocksFrom]
      rfl
  · cases ts with
    | nil => exact absurd rfl h
    | cons t ts =>
      rw [buildText_data, List.map_cons, blocksFrom]
      rfl

/-- Claim C9, witness: the one-page document with text "a". -/
theorem claimC9_witness :
    (["a"] : List String) ≠ []
    ∧ ((buildText ["a"]).data.head? = some '\n'
      ∧ markerShaped (buildText ["a"]).data = false
      ∧ buildText ["a"]
          = String.join (((["a"] : List String).enumFrom 1).map
              fun p => pageMarker p.1 ++ p.2)) :=
  ⟨by decide, claimC9 ["a"] (by decide)⟩

/-- Claim C10: the driver sorts the globbed paths before the loop: the
processed order is sorted ascending (lexicographically, by code point) and
is a permutation of the glob result, and the per-file console lines appear
in exactly that sorted order. -/
theorem claimC10 (lib : String → PdfEnv) (fs : List String) :
    List.Sorted (· ≤ ·) (sortedFiles fs)
    ∧ (sortedFiles fs).Perm fs
    ∧ mainLines lib fs
        = ("Found " ++ toString fs.length ++ " PDF files to convert")
          :: ((sortedFiles fs).map
              (fun f => (extract_text_from_pdf f (text_path f) (lib f) none).line)
            ++ ["\nConversion complete!", "Text files saved in: " ++ text_dir]) := by
  refine ⟨List.sorted_insertionSort _ fs, List.perm_insertionSort _ fs, ?_⟩
  rw [mainLines, convResults_eq_map, List.map_map]
  rfl

/-- Claim C5: the driver converts every convertible file, reports each
corrupt file's error without aborting, produces exactly one report line per
input file in order, and always ends with the final summary line; no
per-file failure escapes the loop. -/
theorem claimC5 (lib : String → PdfEnv) (fs : List String) :
    (convResults lib (sortedFiles fs)).length = fs.length
    ∧ convResults lib (sortedFiles fs)
        = (sortedFiles fs).map
            (fun f => extract_text_from_pdf f (text_path f) (lib f) none)
    ∧ (mainLines lib fs).getLast? = some ("Text files saved in: " ++ text_dir)
    ∧ (∀ f ∈ sortedFiles fs, conversionOk (lib f) = true →
        extract_text_from_pdf f (text_path f) (lib f) none
          = ⟨true, some (fullText (lib f)), convertedLine f (text_path f)⟩)
    ∧ (∀ f ∈ sortedFiles fs, conversionOk (lib f) = false →
        (extract_text_from_pdf f (text_path f) (lib f) none).ok = false
        ∧ ∃ m, (extract_text_from_pdf f (text_path f) (lib f) none).line
            = errorLine f m) := by
  refine ⟨?_, convResults_eq_map lib _, ?_, ?_, ?_⟩
  · rw [convResults_eq_map, List.length_map]
    exact (List.perm_insertionSort _ fs).length_eq
  · rw [mainLines]
    exact getLast?_cons_append_pair _ _ _ _
  · intro f _ h
    exact extract_of_ok _ _ _ _ h
  · intro f _ h
    exact extract_of_fail _ _ _ _ h

/-- Claim C5, witness: a directory with one convertible and one corrupt
file — the corrupt one is reported, the valid one converted, and the final
summary line is printed. -/
theorem claimC5_witness :
    "good.pdf" ∈ sortedFiles fsW
    ∧ "bad.pdf" ∈ sortedFiles fsW
    ∧ conversionOk (libW "good.pdf") = true
    ∧ conversionOk (libW "bad.pdf") = false
    ∧ (mainLines libW fsW).getLast? = some ("Text files saved in: " ++ text_dir)
    ∧ extract_text_from_pdf "good.pdf" (text_path "good.pdf") (libW "good.pdf") none
        = ⟨true, some (fullText (libW "good.pdf")),
            convertedLine "good.pdf" (text_path "good.pdf")⟩
    ∧ ((extract_text_from_pdf "bad.pdf" (text_path "bad.pdf") (libW "bad.pdf") none).ok
          = false
      ∧ ∃ m, (extract_text_from_pdf "bad.pdf" (text_path "bad.pdf") (libW "bad.pdf")
          none).line = errorLine "bad.pdf" m) := by
  have hle : ¬ (("good.pdf" : String) ≤ "bad.pdf") := by
    rw [String.le_iff_toList_le]
    decide
  have hsort : sortedFiles fsW = ["bad.pdf", "good.pdf"] := by
    simp [sortedFiles, fsW, List.insertionSort, List.orderedInsert, if_neg hle]
    decide
  have hgood : "good.pdf" ∈ sortedFiles fsW := by rw [hsort]; decide
  have hbad : "bad.pdf" ∈ sortedFiles fsW := by rw [hsort]; decide
  have h := claimC5 libW fsW
  exact ⟨hgood, hbad, by decide, by decide, h.2.2.1,
    h.2.2.2.1 "good.pdf" hgood (by decide),
    h.2.2.2.2 "bad.pdf" hbad (by decide)⟩

end PdfToText
